import Mathlib

/-! exposecontroller: the service event handlers of `controller.NewController`

A shallow embedding of the three informer callbacks registered in
`controller/controller.go` (`AddFunc`, `UpdateFunc`, `DeleteFunc`), followed by
theorems about which exposure-strategy calls each notification produces.

Modelling choices

* Go strings are Lean `String`s.  The only string operation of the handlers is
  `strings.Split(key, "/")`; the separator is one ASCII byte, which never occurs
  inside a multi-byte UTF-8 sequence, so cutting at the character `/` and cutting
  at the byte `0x2F` give the same pieces.
* A Go `map[string]string` is an association list with unique keys (`AList`),
  wrapped in `Option` so that the nil map (`none`) is distinct from an empty one.
  Reading a key that is absent, or reading a nil map, yields the zero value `""`.
* The exposure strategy is an external, stateful capability: its two methods take
  and return the strategy's own state, and return `none` for a nil error or
  `some msg` for an error carrying message `msg`.
* A handler runs on a `World`: the strategy state, the trace of strategy calls
  issued so far, and the lines written with `glog.Errorf`.  It ends in
  `Result.done` (the callback returned) or `Result.panicked` (a Go run-time panic:
  a failed type assertion or an index out of range); both carry the world reached.
* `exposestrategy.ExposeLabel` is declared outside this file; the handlers take it
  as a parameter.
* The informer never delivers a nil `*api.Service`, and the strategy methods are
  taken to return (with or without an error); neither case is modelled as a panic.
-/

namespace controller

/-! ## Data model -/

/-- The Go type `map[string]string`, non-nil: finitely many entries, keys unique. -/
abbrev LabelMap := AList (fun _ : String => String)

/-- Two label maps are equal when their entry lists are; decided by comparing the lists. -/
instance LabelMap.instDecEq : DecidableEq LabelMap := fun a b =>
  decidable_of_iff (a.entries = b.entries) ⟨AList.ext, fun h => congrArg AList.entries h⟩

/-- The fields of `api.ObjectMeta` the handlers read or write. `Labels = none` is the nil map. -/
structure ObjectMeta where
  Namespace : String
  Name : String
  Labels : Option LabelMap
  deriving DecidableEq

/-- The type `api.Service`, reduced to its `ObjectMeta`. -/
structure Service where
  ObjectMeta : ObjectMeta
  deriving DecidableEq

/-- The type `cache.DeletedFinalStateUnknown`: a key and the possibly stale last known object. -/
structure DeletedFinalStateUnknown where
  Key : String
  Obj : Option Service
  deriving DecidableEq

/-- The dynamic values (`interface{}`) the informer hands to the callbacks. -/
inductive Obj where
  | service (svc : Service)
  | deletedFinalStateUnknown (d : DeletedFinalStateUnknown)
  deriving DecidableEq

/-- The type `exposestrategy.Label`. -/
structure Label where
  Key : String
  Value : String
  deriving DecidableEq

/-- One invocation of the exposure strategy, as recorded in the trace. -/
inductive Call where
  | Add (svc : Service)
  | Remove (svc : Service)
  deriving DecidableEq

/-- The interface `exposestrategy.ExposeStrategy` over a strategy state `σ`. -/
structure ExposeStrategy (σ : Type) where
  Add : Service → σ → Option String × σ
  Remove : Service → σ → Option String × σ

/-- What a handler can observe or change. -/
structure World (σ : Type) where
  strategy : σ
  calls : List Call
  log : List String

/-- How a callback ends. -/
inductive Result (σ : Type) where
  | done (w : World σ)
  | panicked (msg : String) (w : World σ)

/-- The world in which the callback ended. -/
def Result.world {σ : Type} : Result σ → World σ
  | .done w => w
  | .panicked _ w => w

/-- True when the callback returned to its caller, false when it panicked. -/
def Result.returned {σ : Type} : Result σ → Bool
  | .done _ => true
  | .panicked _ _ => false

/-! ## Go primitives used by the handlers -/

/-- The Go expression `m[k]` on a `map[string]string`: the zero value `""` when `m` is nil
or has no entry for `k`. -/
def mapIndex (m : Option LabelMap) (k : String) : String :=
  match m with
  | none => ""
  | some entries => (entries.lookup k).getD ""

/-- Cut a character sequence at every occurrence of `sep`; the pieces exclude `sep`. -/
def splitChars (sep : Char) : List Char → List (List Char)
  | [] => [[]]
  | c :: cs =>
    if c = sep then [] :: splitChars sep cs
    else
      match splitChars sep cs with
      | [] => [[c]]
      | seg :: segs => (c :: seg) :: segs

/-- The call `strings.Split(s, sep)` for a one-character separator. -/
def Split (s : String) (sep : Char) : List String :=
  (splitChars sep s.toList).map String.mk

/-- The call `glog.Errorf(...)` with the formatted line. -/
def Errorf {σ : Type} (line : String) (w : World σ) : World σ :=
  { w with log := w.log ++ [line] }

/-- The call `strategy.Add(svc)`: runs the strategy and records the call. -/
def callAdd {σ : Type} (strategy : ExposeStrategy σ) (svc : Service) (w : World σ) :
    Option String × World σ :=
  let r := strategy.Add svc w.strategy
  (r.1, { w with strategy := r.2, calls := w.calls ++ [Call.Add svc] })

/-- The call `strategy.Remove(svc)`: runs the strategy and records the call. -/
def callRemove {σ : Type} (strategy : ExposeStrategy σ) (svc : Service) (w : World σ) :
    Option String × World σ :=
  let r := strategy.Remove svc w.strategy
  (r.1, { w with strategy := r.2, calls := w.calls ++ [Call.Remove svc] })

/-! ## The handlers -/

/-- The condition `svc.Labels[ExposeLabel.Key] == ExposeLabel.Value` of the handlers. -/
def hasExposeLabel (ExposeLabel : Label) (svc : Service) : Bool :=
  decide (mapIndex svc.ObjectMeta.Labels ExposeLabel.Key = ExposeLabel.Value)

/-- The callback `AddFunc` of `NewController`. -/
def AddFunc {σ : Type} (ExposeLabel : Label) (strategy : ExposeStrategy σ)
    (obj : Obj) (w : World σ) : Result σ :=
  match obj with
  | .service svc =>
    if hasExposeLabel ExposeLabel svc then
      match callAdd strategy svc w with
      | (some err, w1) => .done (Errorf ("Add failed: " ++ err) w1)
      | (none, w1) => .done w1
    else .done w
  | .deletedFinalStateUnknown _ =>
    .panicked "interface conversion: interface is cache.DeletedFinalStateUnknown, not *api.Service" w

/-- The callback `UpdateFunc` of `NewController`. -/
def UpdateFunc {σ : Type} (ExposeLabel : Label) (strategy : ExposeStrategy σ)
    (oldObj newObj : Obj) (w : World σ) : Result σ :=
  match newObj with
  | .service svc =>
    if hasExposeLabel ExposeLabel svc then
      match callAdd strategy svc w with
      | (some err, w1) => .done (Errorf ("Add failed: " ++ err) w1)
      | (none, w1) => .done w1
    else
      match oldObj with
      | .service oldSvc =>
        if hasExposeLabel ExposeLabel oldSvc then
          match callRemove strategy svc w with
          | (some err, w1) => .done (Errorf ("Remove failed: " ++ err) w1)
          | (none, w1) => .done w1
        else .done w
      | .deletedFinalStateUnknown _ =>
        .panicked "interface conversion: interface is cache.DeletedFinalStateUnknown, not *api.Service" w
  | .deletedFinalStateUnknown _ =>
    .panicked "interface conversion: interface is cache.DeletedFinalStateUnknown, not *api.Service" w

/-- The callback `DeleteFunc` of `NewController`. -/
def DeleteFunc {σ : Type} (strategy : ExposeStrategy σ) (obj : Obj) (w : World σ) : Result σ :=
  match obj with
  | .deletedFinalStateUnknown svc =>
    -- service key is in the form namespace/name
    let split := Split svc.Key '/'
    match split[0]? with
    | none => .panicked "runtime error: index out of range [0]" w
    | some ns =>
      match split[1]? with
      | none => .panicked "runtime error: index out of range [1]" w
      | some name =>
        match callRemove strategy
            { ObjectMeta := { Namespace := ns, Name := name, Labels := none } } w with
        | (some err, w1) => .done (Errorf ("Remove failed: " ++ err) w1)
        | (none, w1) => .done w1
  | .service _ => .done w

/-- A change notification of the informer. -/
inductive Notification where
  | Added (obj : Obj)
  | Updated (oldObj newObj : Obj)
  | Deleted (obj : Obj)
  deriving DecidableEq

/-- The methods `OnAdd`, `OnUpdate`, `OnDelete` of `framework.ResourceEventHandlerFuncs`,
with the three callbacks registered by `NewController`. -/
def handle {σ : Type} (ExposeLabel : Label) (strategy : ExposeStrategy σ)
    (n : Notification) (w : World σ) : Result σ :=
  match n with
  | .Added obj => AddFunc ExposeLabel strategy obj w
  | .Updated oldObj newObj => UpdateFunc ExposeLabel strategy oldObj newObj w
  | .Deleted obj => DeleteFunc strategy obj w

/-! ## Fixtures -/

/-- A strategy without state whose two methods always return a nil error. -/
def okStrategy : ExposeStrategy Unit where
  Add := fun _ s => (none, s)
  Remove := fun _ s => (none, s)

/-- A strategy without state whose two methods always return an error. -/
def failingStrategy : ExposeStrategy Unit where
  Add := fun _ s => (some "add refused", s)
  Remove := fun _ s => (some "remove refused", s)

/-- The world before any notification was handled. -/
def World.init {σ : Type} (s : σ) : World σ :=
  { strategy := s, calls := [], log := [] }

/-- A label map with the single entry `k ↦ v`. -/
def LabelMap.single (k v : String) : LabelMap := AList.singleton k v

/-- A service with the given identity and labels. -/
def Service.mk3 (ns name : String) (labels : Option LabelMap) : Service :=
  { ObjectMeta := { Namespace := ns, Name := name, Labels := labels } }

/-! ## The expose marker, in the words of the specification -/

/-- The label mapping `m` contains the exact pair `(l.Key, l.Value)`; a nil map contains
nothing. -/
def containsLabel (m : Option LabelMap) (l : Label) : Prop :=
  match m with
  | none => False
  | some entries => Sigma.mk l.Key l.Value ∈ entries.entries

/-- The label mapping `m` has an entry under key `k`; a nil map has none. -/
def hasLabelKey (m : Option LabelMap) (k : String) : Prop :=
  match m with
  | none => False
  | some entries => k ∈ entries.keys

instance (m : Option LabelMap) (l : Label) : Decidable (containsLabel m l) := by
  unfold containsLabel
  cases m <;> infer_instance

instance (m : Option LabelMap) (k : String) : Decidable (hasLabelKey m k) := by
  unfold hasLabelKey
  cases m <;> infer_instance

/-- The strategy calls a notification leads to, read off the branch structure of the
handlers; `handle_calls` below shows every run issues exactly these. -/
def issuedCalls (ExposeLabel : Label) : Notification → List Call
  | .Added (.service svc) => if hasExposeLabel ExposeLabel svc then [Call.Add svc] else []
  | .Added (.deletedFinalStateUnknown _) => []
  | .Updated oldObj (.service svc) =>
    if hasExposeLabel ExposeLabel svc then [Call.Add svc]
    else
      match oldObj with
      | .service oldSvc => if hasExposeLabel ExposeLabel oldSvc then [Call.Remove svc] else []
      | .deletedFinalStateUnknown _ => []
  | .Updated _ (.deletedFinalStateUnknown _) => []
  | .Deleted (.service _) => []
  | .Deleted (.deletedFinalStateUnknown d) =>
    match (Split d.Key '/')[0]?, (Split d.Key '/')[1]? with
    | some ns, some name =>
      [Call.Remove { ObjectMeta := { Namespace := ns, Name := name, Labels := none } }]
    | _, _ => []

end controller

namespace controller

/-! ## Facts about the Go primitives -/

/-! `splitChars` agrees with `strings.Split` on a one-byte separator: it never returns an
empty slice, joining its pieces with the separator gives back the input, no piece contains
the separator, and there is one more piece than there are separators. -/

theorem splitChars_ne_nil (sep : Char) (s : List Char) : splitChars sep s ≠ [] := by
  cases s with
  | nil => simp [splitChars]
  | cons c cs =>
    unfold splitChars
    split
    · simp
    · split <;> simp

theorem splitChars_intercalate (sep : Char) (s : List Char) :
    List.intercalate [sep] (splitChars sep s) = s := by
  induction s with
  | nil => simp [splitChars, List.intercalate]
  | cons c cs ih =>
    have hne := splitChars_ne_nil sep cs
    cases hs : splitChars sep cs with
    | nil => exact absurd hs hne
    | cons seg segs =>
      rw [hs] at ih
      by_cases hc : c = sep
      · subst hc
        simp only [splitChars, if_true, hs]
        simp only [List.intercalate, List.intersperse] at ih ⊢
        simp only [List.flatten, List.nil_append, List.singleton_append]
        simpa using ih
      · simp only [splitChars, if_neg hc, hs]
        cases segs with
        | nil => simpa [List.intercalate] using ih
        | cons s2 rest =>
          simp only [List.intercalate, List.intersperse] at ih ⊢
          simpa using ih

theorem splitChars_pieces (sep : Char) (s : List Char) :
    ∀ p ∈ splitChars sep s, sep ∉ p := by
  induction s with
  | nil => simp [splitChars]
  | cons c cs ih =>
    have hne := splitChars_ne_nil sep cs
    cases hs : splitChars sep cs with
    | nil => exact absurd hs hne
    | cons seg segs =>
      rw [hs] at ih
      by_cases hc : c = sep
      · simp only [splitChars, if_pos hc, hs]
        intro p hp
        rcases List.mem_cons.mp hp with h | h
        · simp [h]
        · exact ih p h
      · simp only [splitChars, if_neg hc, hs]
        intro p hp
        rcases List.mem_cons.mp hp with h | h
        · subst h
          have := ih seg (by simp)
          simp [this, Ne.symm hc]
        · exact ih p (by simp [h])

theorem splitChars_length (sep : Char) (s : List Char) :
    (splitChars sep s).length = s.count sep + 1 := by
  induction s with
  | nil => simp [splitChars]
  | cons c cs ih =>
    have hne := splitChars_ne_nil sep cs
    cases hs : splitChars sep cs with
    | nil => exact absurd hs hne
    | cons seg segs =>
      rw [hs] at ih
      by_cases hc : c = sep
      · simp only [splitChars, if_pos hc, hs, List.length_cons]
        simp only [List.length_cons] at ih
        rw [ih, hc, List.count_cons_self]
      · simp only [splitChars, if_neg hc, hs, List.length_cons]
        simp only [List.length_cons] at ih
        rw [ih, List.count_cons_of_ne (Ne.symm hc)]

theorem splitChars_of_not_mem (sep : Char) (a : List Char) (h : sep ∉ a) :
    splitChars sep a = [a] := by
  induction a with
  | nil => rfl
  | cons c cs ih =>
    have hc : c ≠ sep := fun e => h (by simp [e])
    have hcs : sep ∉ cs := fun e => h (by simp [e])
    simp [splitChars, hc, ih hcs]

theorem splitChars_append_sep (sep : Char) (a b : List Char) (h : sep ∉ a) :
    splitChars sep (a ++ sep :: b) = a :: splitChars sep b := by
  induction a with
  | nil => simp [splitChars]
  | cons c cs ih =>
    have hc : c ≠ sep := fun e => h (by simp [e])
    have hcs : sep ∉ cs := fun e => h (by simp [e])
    simp [splitChars, hc, ih hcs]

theorem Split_of_not_mem (sep : Char) (a : String) (h : sep ∉ a.toList) :
    Split a sep = [a] := by
  unfold Split
  rw [splitChars_of_not_mem sep a.toList h]
  rfl

theorem Split_append_sep (sep : Char) (a rest : String) (h : sep ∉ a.toList) :
    Split (a ++ String.singleton sep ++ rest) sep = a :: Split rest sep := by
  have e : (a ++ String.singleton sep ++ rest).toList = a.toList ++ sep :: rest.toList := by
    simp [String.toList, String.singleton]
  unfold Split
  rw [e, splitChars_append_sep sep a.toList rest.toList h]
  rfl

/-! ## What each handler issues, whatever the strategy answers -/

theorem AddFunc_calls {σ : Type} (L : Label) (S : ExposeStrategy σ) (obj : Obj) (w : World σ) :
    (AddFunc L S obj w).world.calls = w.calls ++ issuedCalls L (.Added obj) := by
  cases obj with
  | service svc =>
    cases hm : hasExposeLabel L svc
    · simp [AddFunc, issuedCalls, hm, Result.world]
    · cases he : (S.Add svc w.strategy).1 <;>
        simp [AddFunc, issuedCalls, hm, callAdd, he, Result.world, Errorf]
  | deletedFinalStateUnknown d => simp [AddFunc, issuedCalls, Result.world]

theorem UpdateFunc_calls {σ : Type} (L : Label) (S : ExposeStrategy σ) (oldObj newObj : Obj)
    (w : World σ) :
    (UpdateFunc L S oldObj newObj w).world.calls
      = w.calls ++ issuedCalls L (.Updated oldObj newObj) := by
  cases newObj with
  | service svc =>
    cases hm : hasExposeLabel L svc
    · cases oldObj with
      | service oldSvc =>
        cases ho : hasExposeLabel L oldSvc
        · simp [UpdateFunc, issuedCalls, hm, ho, Result.world]
        · cases he : (S.Remove svc w.strategy).1 <;>
            simp [UpdateFunc, issuedCalls, hm, ho, callRemove, he, Result.world, Errorf]
      | deletedFinalStateUnknown d => simp [UpdateFunc, issuedCalls, hm, Result.world]
    · cases he : (S.Add svc w.strategy).1 <;>
        simp [UpdateFunc, issuedCalls, hm, callAdd, he, Result.world, Errorf]
  | deletedFinalStateUnknown d => simp [UpdateFunc, issuedCalls, Result.world]

theorem DeleteFunc_calls {σ : Type} (L : Label) (S : ExposeStrategy σ) (obj : Obj) (w : World σ) :
    (DeleteFunc S obj w).world.calls = w.calls ++ issuedCalls L (.Deleted obj) := by
  cases obj with
  | service svc => simp [DeleteFunc, issuedCalls, Result.world]
  | deletedFinalStateUnknown d =>
    cases h0 : (Split d.Key '/')[0]? with
    | none => simp [DeleteFunc, issuedCalls, h0, Result.world]
    | some ns =>
      cases h1 : (Split d.Key '/')[1]? with
      | none => simp [DeleteFunc, issuedCalls, h0, h1, Result.world]
      | some name =>
        cases he : (S.Remove { ObjectMeta := { Namespace := ns, Name := name, Labels := none } }
            w.strategy).1 <;>
          simp [DeleteFunc, issuedCalls, h0, h1, callRemove, he, Result.world, Errorf]

theorem handle_calls {σ : Type} (L : Label) (S : ExposeStrategy σ) (n : Notification)
    (w : World σ) :
    (handle L S n w).world.calls = w.calls ++ issuedCalls L n := by
  cases n with
  | Added obj => exact AddFunc_calls L S obj w
  | Updated oldObj newObj => exact UpdateFunc_calls L S oldObj newObj w
  | Deleted obj => exact DeleteFunc_calls L S obj w

theorem issuedCalls_length_le_one (L : Label) (n : Notification) :
    (issuedCalls L n).length ≤ 1 := by
  cases n with
  | Added obj =>
    cases obj with
    | service svc => simp only [issuedCalls]; split <;> simp
    | deletedFinalStateUnknown d => simp [issuedCalls]
  | Updated oldObj newObj =>
    cases newObj with
    | service svc =>
      cases oldObj with
      | service oldSvc =>
        simp only [issuedCalls]
        split
        · simp
        · split <;> simp
      | deletedFinalStateUnknown d => simp only [issuedCalls]; split <;> simp
    | deletedFinalStateUnknown d => simp [issuedCalls]
  | Deleted obj =>
    cases obj with
    | service svc => simp [issuedCalls]
    | deletedFinalStateUnknown d => simp only [issuedCalls]; split <;> simp

theorem handle_returned_of_issued {σ : Type} (L : Label) (S : ExposeStrategy σ)
    (n : Notification) (w : World σ) (h : issuedCalls L n ≠ []) :
    (handle L S n w).returned = true := by
  cases n with
  | Added obj =>
    cases obj with
    | service svc =>
      cases hm : hasExposeLabel L svc
      · simp [issuedCalls, hm] at h
      · cases he : (S.Add svc w.strategy).1 <;>
          simp [handle, AddFunc, hm, callAdd, he, Result.returned]
    | deletedFinalStateUnknown d => simp [issuedCalls] at h
  | Updated oldObj newObj =>
    cases newObj with
    | service svc =>
      cases hm : hasExposeLabel L svc
      · cases oldObj with
        | service oldSvc =>
          cases ho : hasExposeLabel L oldSvc
          · simp [issuedCalls, hm, ho] at h
          · cases he : (S.Remove svc w.strategy).1 <;>
              simp [handle, UpdateFunc, hm, ho, callRemove, he, Result.returned]
        | deletedFinalStateUnknown d => simp [issuedCalls, hm] at h
      · cases he : (S.Add svc w.strategy).1 <;>
          simp [handle, UpdateFunc, hm, callAdd, he, Result.returned]
    | deletedFinalStateUnknown d => simp [issuedCalls] at h
  | Deleted obj =>
    cases obj with
    | service svc => simp [issuedCalls] at h
    | deletedFinalStateUnknown d =>
      cases h0 : (Split d.Key '/')[0]? with
      | none => simp [issuedCalls, h0] at h
      | some ns =>
        cases h1 : (Split d.Key '/')[1]? with
        | none => simp [issuedCalls, h0, h1] at h
        | some name =>
          cases he : (S.Remove { ObjectMeta := { Namespace := ns, Name := name, Labels := none } }
              w.strategy).1 <;>
            simp [handle, DeleteFunc, h0, h1, callRemove, he, Result.returned]

theorem DeleteFunc_of_split {σ : Type} (S : ExposeStrategy σ) (d : DeletedFinalStateUnknown)
    (w : World σ) (ns name : String) (rest : List String)
    (h : Split d.Key '/' = ns :: name :: rest) :
    (DeleteFunc S (.deletedFinalStateUnknown d) w).returned = true
    ∧ (DeleteFunc S (.deletedFinalStateUnknown d) w).world.calls
        = w.calls ++ [Call.Remove (Service.mk3 ns name none)]
    ∧ ((S.Remove (Service.mk3 ns name none) w.strategy).1 = none →
        (DeleteFunc S (.deletedFinalStateUnknown d) w).world.log = w.log) := by
  cases he : (S.Remove { ObjectMeta := { Namespace := ns, Name := name, Labels := none } }
      w.strategy).1 <;>
    simp [DeleteFunc, h, callRemove, he, Result.returned, Result.world, Errorf, Service.mk3]

theorem DeleteFunc_of_no_separator {σ : Type} (S : ExposeStrategy σ)
    (d : DeletedFinalStateUnknown) (w : World σ) (h : '/' ∉ d.Key.toList) :
    DeleteFunc S (.deletedFinalStateUnknown d) w
      = .panicked "runtime error: index out of range [1]" w := by
  have hs : Split d.Key '/' = [d.Key] := Split_of_not_mem '/' d.Key h
  simp only [DeleteFunc, hs]
  rfl

theorem hasExposeLabel_eq_true_iff (L : Label) (svc : Service) :
    hasExposeLabel L svc = true ↔ mapIndex svc.ObjectMeta.Labels L.Key = L.Value := by
  simp [hasExposeLabel]

theorem mapIndex_eq_iff_containsLabel (m : Option LabelMap) (L : Label) (h : L.Value ≠ "") :
    mapIndex m L.Key = L.Value ↔ containsLabel m L := by
  cases m with
  | none =>
    simp only [mapIndex, containsLabel, iff_false]
    exact fun e => h e.symm
  | some entries =>
    simp only [mapIndex, containsLabel]
    rw [← AList.mem_lookup_iff]
    cases hl : entries.lookup L.Key with
    | none =>
      simp only [Option.getD_none, Option.mem_def]
      constructor
      · exact fun e => absurd e.symm h
      · intro e; cases e
    | some v => simp

theorem mapIndex_of_not_hasLabelKey (m : Option LabelMap) (k : String)
    (h : ¬ hasLabelKey m k) : mapIndex m k = "" := by
  cases m with
  | none => rfl
  | some entries =>
    have hk : k ∉ entries := fun hin => h (by simpa [hasLabelKey] using hin)
    simp [mapIndex, AList.lookup_eq_none.mpr hk]

theorem AddFunc_service_result {σ : Type} (L : Label) (S : ExposeStrategy σ)
    (r : Service) (w : World σ) :
    (AddFunc L S (.service r) w).returned = true
    ∧ (AddFunc L S (.service r) w).world.calls
        = w.calls ++ (if hasExposeLabel L r then [Call.Add r] else []) := by
  refine ⟨?_, by simpa [issuedCalls] using AddFunc_calls L S (.service r) w⟩
  cases hm : hasExposeLabel L r
  · simp [AddFunc, hm, Result.returned]
  · cases he : (S.Add r w.strategy).1 <;> simp [AddFunc, hm, callAdd, he, Result.returned]

theorem UpdateFunc_service_unmarked_result {σ : Type} (L : Label)
    (S : ExposeStrategy σ) (old new : Service) (w : World σ)
    (hnew : hasExposeLabel L new = false) :
    (UpdateFunc L S (.service old) (.service new) w).returned = true
    ∧ (UpdateFunc L S (.service old) (.service new) w).world.calls
        = w.calls ++ (if hasExposeLabel L old then [Call.Remove new] else []) := by
  refine ⟨?_, by
    simpa [issuedCalls, hnew] using UpdateFunc_calls L S (.service old) (.service new) w⟩
  cases ho : hasExposeLabel L old
  · simp [UpdateFunc, hnew, ho, Result.returned]
  · cases he : (S.Remove new w.strategy).1 <;>
      simp [UpdateFunc, hnew, ho, callRemove, he, Result.returned]

theorem hasExposeLabel_eq_true_iff_containsLabel (L : Label) (svc : Service)
    (hval : L.Value ≠ "") :
    hasExposeLabel L svc = true ↔ containsLabel svc.ObjectMeta.Labels L :=
  (hasExposeLabel_eq_true_iff L svc).trans
    (mapIndex_eq_iff_containsLabel svc.ObjectMeta.Labels L hval)

theorem hasExposeLabel_eq_false_iff_not_containsLabel (L : Label) (svc : Service)
    (hval : L.Value ≠ "") :
    hasExposeLabel L svc = false ↔ ¬ containsLabel svc.ObjectMeta.Labels L := by
  rw [← hasExposeLabel_eq_true_iff_containsLabel L svc hval]
  simp

/-! ## The claims -/

/-- C1: a Deleted notification that carries a full service object makes the delete handler
return without calling the strategy at all: the trace of calls is unchanged, so the Remove
call the specification asks for is not issued. -/
theorem DeleteFunc_full_object_issues_no_call {σ : Type} (S : ExposeStrategy σ) (r : Service)
    (w : World σ) :
    (DeleteFunc S (.service r) w).returned = true
    ∧ (DeleteFunc S (.service r) w).world.calls = w.calls
    ∧ (DeleteFunc S (.service r) w).world.calls ≠ w.calls ++ [Call.Remove r] := by
  refine ⟨rfl, rfl, ?_⟩
  intro h
  have hl := congrArg List.length h
  simp [DeleteFunc, Result.world] at hl

/-- C2: on the tombstone key "malformed", which has no separator, the delete handler does
not return: it panics at the index expression `split[1]`, before any strategy call. -/
theorem DeleteFunc_malformed_key_panics {σ : Type} (S : ExposeStrategy σ)
    (stale : Option Service) (w : World σ) :
    DeleteFunc S (.deletedFinalStateUnknown { Key := "malformed", Obj := stale }) w
        = .panicked "runtime error: index out of range [1]" w
    ∧ (DeleteFunc S (.deletedFinalStateUnknown { Key := "malformed", Obj := stale }) w).returned
        = false
    ∧ (DeleteFunc S (.deletedFinalStateUnknown { Key := "malformed", Obj := stale }) w).world.calls
        = w.calls := by
  have hk : '/' ∉ "malformed".toList := by decide
  have h := DeleteFunc_of_no_separator S { Key := "malformed", Obj := stale } w hk
  rw [h]
  exact ⟨rfl, rfl, rfl⟩

/-- C3: for a tombstone key `ns/name` with exactly one separator (none inside `ns`, none
inside `name`), the delete handler returns and issues exactly one call, a Remove on the
service with namespace `ns`, name `name` and nil labels; no Add is issued. -/
theorem DeleteFunc_tombstone_one_separator {σ : Type} (S : ExposeStrategy σ)
    (ns name : String) (stale : Option Service) (w : World σ)
    (hns : '/' ∉ ns.toList) (hname : '/' ∉ name.toList) :
    (DeleteFunc S (.deletedFinalStateUnknown { Key := ns ++ "/" ++ name, Obj := stale }) w).returned
        = true
    ∧ (DeleteFunc S (.deletedFinalStateUnknown { Key := ns ++ "/" ++ name, Obj := stale })
          w).world.calls
        = w.calls ++ [Call.Remove
            { ObjectMeta := { Namespace := ns, Name := name, Labels := none } }] := by
  have hs : Split (ns ++ "/" ++ name) '/' = ns :: name :: [] := by
    have h1 := Split_append_sep '/' ns name hns
    rw [Split_of_not_mem '/' name hname] at h1
    exact h1
  have h := DeleteFunc_of_split S { Key := ns ++ "/" ++ name, Obj := stale } w ns name [] hs
  exact ⟨h.1, h.2.1⟩

/-- Witness for C3: the key "ns1/svc1", with a strategy whose Remove fails. -/
theorem DeleteFunc_tombstone_one_separator_witness :
    '/' ∉ "ns1".toList ∧ '/' ∉ "svc1".toList
    ∧ (DeleteFunc failingStrategy
          (.deletedFinalStateUnknown { Key := "ns1/svc1", Obj := none }) (World.init ())).returned
        = true
    ∧ (DeleteFunc failingStrategy
          (.deletedFinalStateUnknown { Key := "ns1/svc1", Obj := none }) (World.init ())).world.calls
        = [Call.Remove { ObjectMeta := { Namespace := "ns1", Name := "svc1", Labels := none } }] :=
  ⟨by decide, by decide,
    DeleteFunc_tombstone_one_separator failingStrategy "ns1" "svc1" none (World.init ())
      (by decide) (by decide)⟩

/-- C4, as stated, fails: with the marker pair ("expose", "") a service labelled
("app", "web") only does not contain the marker pair, and yet handling Added for it issues
one Add call. -/
theorem AddFunc_empty_value_counterexample :
    ¬ containsLabel (Service.mk3 "ns1" "svc1" (some (LabelMap.single "app" "web"))).ObjectMeta.Labels
        { Key := "expose", Value := "" }
    ∧ (AddFunc { Key := "expose", Value := "" } okStrategy
          (.service (Service.mk3 "ns1" "svc1" (some (LabelMap.single "app" "web"))))
          (World.init ())).world.calls
        = [Call.Add (Service.mk3 "ns1" "svc1" (some (LabelMap.single "app" "web")))] := by
  decide

/-- C4, amended: for every marker pair whose value is not the empty string, handling
Added(r) returns normally and issues exactly one call, Add(r), when the label mapping of r
contains the marker pair, and no call at all (neither Add nor Remove) when it does not. -/
theorem AddFunc_issues_Add_iff_containsLabel {σ : Type} (L : Label) (S : ExposeStrategy σ)
    (r : Service) (w : World σ) (hval : L.Value ≠ "") :
    (AddFunc L S (.service r) w).returned = true
    ∧ (AddFunc L S (.service r) w).world.calls
        = w.calls ++ (if containsLabel r.ObjectMeta.Labels L then [Call.Add r] else []) := by
  have h := AddFunc_service_result L S r w
  refine ⟨h.1, ?_⟩
  rw [h.2]
  by_cases hc : containsLabel r.ObjectMeta.Labels L
  · rw [if_pos hc, (hasExposeLabel_eq_true_iff_containsLabel L r hval).mpr hc]
    rfl
  · rw [if_neg hc, (hasExposeLabel_eq_false_iff_not_containsLabel L r hval).mpr hc]
    rfl

/-- Witness for C4 amended: with the marker ("expose", "true") and a strategy whose Add
fails, a service labelled with the marker gets exactly one Add, and a service labelled
("app", "web") only gets no call. -/
theorem AddFunc_issues_Add_iff_containsLabel_witness :
    ({ Key := "expose", Value := "true" } : Label).Value ≠ ""
    ∧ (AddFunc { Key := "expose", Value := "true" } failingStrategy
          (.service (Service.mk3 "ns1" "svc1" (some (LabelMap.single "expose" "true"))))
          (World.init ())).returned = true
    ∧ (AddFunc { Key := "expose", Value := "true" } failingStrategy
          (.service (Service.mk3 "ns1" "svc1" (some (LabelMap.single "expose" "true"))))
          (World.init ())).world.calls
        = [Call.Add (Service.mk3 "ns1" "svc1" (some (LabelMap.single "expose" "true")))]
    ∧ (AddFunc { Key := "expose", Value := "true" } failingStrategy
          (.service (Service.mk3 "ns1" "svc2" (some (LabelMap.single "app" "web"))))
          (World.init ())).world.calls = [] :=
  ⟨by decide,
    (AddFunc_issues_Add_iff_containsLabel { Key := "expose", Value := "true" } failingStrategy
      (Service.mk3 "ns1" "svc1" (some (LabelMap.single "expose" "true"))) (World.init ())
      (by decide)).1,
    (AddFunc_issues_Add_iff_containsLabel { Key := "expose", Value := "true" } failingStrategy
      (Service.mk3 "ns1" "svc1" (some (LabelMap.single "expose" "true"))) (World.init ())
      (by decide)).2,
    (AddFunc_issues_Add_iff_containsLabel { Key := "expose", Value := "true" } failingStrategy
      (Service.mk3 "ns1" "svc2" (some (LabelMap.single "app" "web"))) (World.init ())
      (by decide)).2⟩

/-- C5: when the new object of an Updated notification passes the marker test, the update
handler returns and issues exactly one call, Add(new), whatever the old object is; no
Remove is issued. -/
theorem UpdateFunc_new_marked_issues_Add {σ : Type} (L : Label) (S : ExposeStrategy σ)
    (oldObj : Obj) (new : Service) (w : World σ) (hnew : hasExposeLabel L new = true) :
    (UpdateFunc L S oldObj (.service new) w).returned = true
    ∧ (UpdateFunc L S oldObj (.service new) w).world.calls = w.calls ++ [Call.Add new] := by
  refine ⟨?_, by simpa [issuedCalls, hnew] using UpdateFunc_calls L S oldObj (.service new) w⟩
  cases he : (S.Add new w.strategy).1 <;>
    simp [UpdateFunc, hnew, callAdd, he, Result.returned]

/-- Witness for C5: the old object lacks the marker, the new one carries it, and Add fails. -/
theorem UpdateFunc_new_marked_issues_Add_witness :
    hasExposeLabel { Key := "expose", Value := "true" }
        (Service.mk3 "ns1" "svc1" (some (LabelMap.single "expose" "true"))) = true
    ∧ (UpdateFunc { Key := "expose", Value := "true" } failingStrategy
          (.service (Service.mk3 "ns1" "svc1" none))
          (.service (Service.mk3 "ns1" "svc1" (some (LabelMap.single "expose" "true"))))
          (World.init ())).returned = true
    ∧ (UpdateFunc { Key := "expose", Value := "true" } failingStrategy
          (.service (Service.mk3 "ns1" "svc1" none))
          (.service (Service.mk3 "ns1" "svc1" (some (LabelMap.single "expose" "true"))))
          (World.init ())).world.calls
        = [Call.Add (Service.mk3 "ns1" "svc1" (some (LabelMap.single "expose" "true")))] :=
  ⟨by decide,
    UpdateFunc_new_marked_issues_Add { Key := "expose", Value := "true" } failingStrategy
      (.service (Service.mk3 "ns1" "svc1" none))
      (Service.mk3 "ns1" "svc1" (some (LabelMap.single "expose" "true"))) (World.init ())
      (by decide)⟩

/-- C6, as stated, fails: with the marker pair ("expose", ""), an old object labelled
("app", "web") and a new object labelled ("expose", "x") both lack the marker pair, and yet
the update handler issues Remove(new); and a new object labelled ("app", "web") lacks the
marker pair, and yet the update handler issues Add(new). -/
theorem UpdateFunc_empty_value_counterexample :
    ¬ containsLabel (Service.mk3 "ns1" "svc1" (some (LabelMap.single "expose" "x"))).ObjectMeta.Labels
        { Key := "expose", Value := "" }
    ∧ ¬ containsLabel (Service.mk3 "ns1" "svc1" (some (LabelMap.single "app" "web"))).ObjectMeta.Labels
        { Key := "expose", Value := "" }
    ∧ (UpdateFunc { Key := "expose", Value := "" } okStrategy
          (.service (Service.mk3 "ns1" "svc1" (some (LabelMap.single "app" "web"))))
          (.service (Service.mk3 "ns1" "svc1" (some (LabelMap.single "expose" "x"))))
          (World.init ())).world.calls
        = [Call.Remove (Service.mk3 "ns1" "svc1" (some (LabelMap.single "expose" "x")))]
    ∧ (UpdateFunc { Key := "expose", Value := "" } okStrategy
          (.service (Service.mk3 "ns1" "svc1" (some (LabelMap.single "expose" "x"))))
          (.service (Service.mk3 "ns1" "svc1" (some (LabelMap.single "app" "web"))))
          (World.init ())).world.calls
        = [Call.Add (Service.mk3 "ns1" "svc1" (some (LabelMap.single "app" "web")))] := by
  decide

/-- C6, amended: for every marker pair whose value is not the empty string, when the label
mapping of the new object of an Updated notification does not contain the marker pair, the
update handler returns and issues no Add; it issues exactly one call, Remove(new), when the
label mapping of the old object contains the marker pair, and no call at all when it does
not. -/
theorem UpdateFunc_new_unmarked_issues_Remove_iff_old_containsLabel {σ : Type} (L : Label)
    (S : ExposeStrategy σ) (old new : Service) (w : World σ) (hval : L.Value ≠ "")
    (hnew : ¬ containsLabel new.ObjectMeta.Labels L) :
    (UpdateFunc L S (.service old) (.service new) w).returned = true
    ∧ (UpdateFunc L S (.service old) (.service new) w).world.calls
        = w.calls ++ (if containsLabel old.ObjectMeta.Labels L then [Call.Remove new] else []) := by
  have h := UpdateFunc_service_unmarked_result L S old new w
    ((hasExposeLabel_eq_false_iff_not_containsLabel L new hval).mpr hnew)
  refine ⟨h.1, ?_⟩
  rw [h.2]
  by_cases hc : containsLabel old.ObjectMeta.Labels L
  · rw [if_pos hc, (hasExposeLabel_eq_true_iff_containsLabel L old hval).mpr hc]
    rfl
  · rw [if_neg hc, (hasExposeLabel_eq_false_iff_not_containsLabel L old hval).mpr hc]
    rfl

/-- Witness for C6 amended: with the marker ("expose", "true"), a new object labelled
("expose", "false"); an old object carrying the marker leads to one Remove on the new
object, an old object without labels leads to no call. -/
theorem UpdateFunc_new_unmarked_issues_Remove_iff_old_containsLabel_witness :
    ({ Key := "expose", Value := "true" } : Label).Value ≠ ""
    ∧ ¬ containsLabel
          (Service.mk3 "ns1" "svc1" (some (LabelMap.single "expose" "false"))).ObjectMeta.Labels
          { Key := "expose", Value := "true" }
    ∧ (UpdateFunc { Key := "expose", Value := "true" } failingStrategy
          (.service (Service.mk3 "ns1" "svc1" (some (LabelMap.single "expose" "true"))))
          (.service (Service.mk3 "ns1" "svc1" (some (LabelMap.single "expose" "false"))))
          (World.init ())).returned = true
    ∧ (UpdateFunc { Key := "expose", Value := "true" } failingStrategy
          (.service (Service.mk3 "ns1" "svc1" (some (LabelMap.single "expose" "true"))))
          (.service (Service.mk3 "ns1" "svc1" (some (LabelMap.single "expose" "false"))))
          (World.init ())).world.calls
        = [Call.Remove (Service.mk3 "ns1" "svc1" (some (LabelMap.single "expose" "false")))]
    ∧ (UpdateFunc { Key := "expose", Value := "true" } failingStrategy
          (.service (Service.mk3 "ns1" "svc1" none))
          (.service (Service.mk3 "ns1" "svc1" (some (LabelMap.single "expose" "false"))))
          (World.init ())).world.calls = [] :=
  ⟨by decide, by decide,
    (UpdateFunc_new_unmarked_issues_Remove_iff_old_containsLabel
      { Key := "expose", Value := "true" } failingStrategy
      (Service.mk3 "ns1" "svc1" (some (LabelMap.single "expose" "true")))
      (Service.mk3 "ns1" "svc1" (some (LabelMap.single "expose" "false"))) (World.init ())
      (by decide) (by decide)).1,
    (UpdateFunc_new_unmarked_issues_Remove_iff_old_containsLabel
      { Key := "expose", Value := "true" } failingStrategy
      (Service.mk3 "ns1" "svc1" (some (LabelMap.single "expose" "true")))
      (Service.mk3 "ns1" "svc1" (some (LabelMap.single "expose" "false"))) (World.init ())
      (by decide) (by decide)).2,
    (UpdateFunc_new_unmarked_issues_Remove_iff_old_containsLabel
      { Key := "expose", Value := "true" } failingStrategy
      (Service.mk3 "ns1" "svc1" none)
      (Service.mk3 "ns1" "svc1" (some (LabelMap.single "expose" "false"))) (World.init ())
      (by decide) (by decide)).2⟩

/-- C7, as stated, fails: with the marker pair ("expose", "") a service whose labels are
("app", "web") only passes the marker test of the handlers, although its label mapping
neither contains the marker pair nor has the marker key. -/
theorem hasExposeLabel_empty_value_counterexample :
    hasExposeLabel { Key := "expose", Value := "" }
        (Service.mk3 "ns1" "svc1" (some (LabelMap.single "app" "web"))) = true
    ∧ ¬ containsLabel (Service.mk3 "ns1" "svc1" (some (LabelMap.single "app" "web"))).ObjectMeta.Labels
        { Key := "expose", Value := "" }
    ∧ ¬ hasLabelKey (Service.mk3 "ns1" "svc1" (some (LabelMap.single "app" "web"))).ObjectMeta.Labels
        "expose" := by
  decide

/-- C7, amended: for every label mapping (nil and empty included) and every marker pair
whose value is not the empty string, the marker test of the handlers holds exactly when the
label mapping contains the marker pair; for such a marker a service whose labels lack the
marker key fails the test. -/
theorem hasExposeLabel_iff_containsLabel (L : Label) (svc : Service) (hval : L.Value ≠ "") :
    (hasExposeLabel L svc = true ↔ containsLabel svc.ObjectMeta.Labels L)
    ∧ (¬ hasLabelKey svc.ObjectMeta.Labels L.Key → hasExposeLabel L svc = false) := by
  constructor
  · rw [hasExposeLabel_eq_true_iff]
    exact mapIndex_eq_iff_containsLabel svc.ObjectMeta.Labels L hval
  · intro hk
    have hz := mapIndex_of_not_hasLabelKey svc.ObjectMeta.Labels L.Key hk
    cases hm : hasExposeLabel L svc
    · rfl
    · rw [hasExposeLabel_eq_true_iff, hz] at hm
      exact absurd hm.symm hval

/-- Witness for C7 amended: with the marker ("expose", "true"), a service labelled with it
passes the test and contains the pair, and a service labelled ("app", "web") only has no
marker key and fails the test. -/
theorem hasExposeLabel_iff_containsLabel_witness :
    ({ Key := "expose", Value := "true" } : Label).Value ≠ ""
    ∧ (hasExposeLabel { Key := "expose", Value := "true" }
          (Service.mk3 "ns1" "svc1" (some (LabelMap.single "expose" "true"))) = true
        ↔ containsLabel
            (Service.mk3 "ns1" "svc1" (some (LabelMap.single "expose" "true"))).ObjectMeta.Labels
            { Key := "expose", Value := "true" })
    ∧ containsLabel
          (Service.mk3 "ns1" "svc1" (some (LabelMap.single "expose" "true"))).ObjectMeta.Labels
          { Key := "expose", Value := "true" }
    ∧ ¬ hasLabelKey
          (Service.mk3 "ns1" "svc2" (some (LabelMap.single "app" "web"))).ObjectMeta.Labels
          ({ Key := "expose", Value := "true" } : Label).Key
    ∧ hasExposeLabel { Key := "expose", Value := "true" }
          (Service.mk3 "ns1" "svc2" (some (LabelMap.single "app" "web"))) = false :=
  ⟨by decide,
    (hasExposeLabel_iff_containsLabel { Key := "expose", Value := "true" }
      (Service.mk3 "ns1" "svc1" (some (LabelMap.single "expose" "true"))) (by decide)).1,
    by decide, by decide,
    (hasExposeLabel_iff_containsLabel { Key := "expose", Value := "true" }
      (Service.mk3 "ns1" "svc2" (some (LabelMap.single "app" "web"))) (by decide)).2
      (by decide)⟩

/-- C8: handling one notification, of any kind and with any payload, under any strategy and
whatever the strategy answers, appends at most one call (Add or Remove) to the trace. -/
theorem handle_at_most_one_call {σ : Type} (L : Label) (S : ExposeStrategy σ)
    (n : Notification) (w : World σ) :
    ∃ issued : List Call,
      (handle L S n w).world.calls = w.calls ++ issued ∧ issued.length ≤ 1 :=
  ⟨issuedCalls L n, handle_calls L S n w, issuedCalls_length_le_one L n⟩

/-- C9: if handling a notification issues a strategy call, then the handler returns to its
caller whatever that call answers (an error included), and the calls it issues are the same
as under any other strategy started from the same trace, in particular one that succeeds:
an error causes neither a fault nor a retry. -/
theorem handle_strategy_error_swallowed {σ τ : Type} (L : Label) (S : ExposeStrategy σ)
    (S0 : ExposeStrategy τ) (n : Notification) (w : World σ) (w0 : World τ)
    (hcalls : w.calls = w0.calls) (hissued : (handle L S n w).world.calls ≠ w.calls) :
    (handle L S n w).returned = true
    ∧ (handle L S0 n w0).returned = true
    ∧ (handle L S n w).world.calls = (handle L S0 n w0).world.calls := by
  have hne : issuedCalls L n ≠ [] := by
    intro hnil
    apply hissued
    rw [handle_calls, hnil, List.append_nil]
  refine ⟨handle_returned_of_issued L S n w hne, handle_returned_of_issued L S0 n w0 hne, ?_⟩
  rw [handle_calls, handle_calls, hcalls]

/-- Witness for C9: an Added notification for a marked service, handled once with a
strategy whose Add fails and once with a strategy whose Add succeeds. -/
theorem handle_strategy_error_swallowed_witness :
    (World.init ()).calls = (World.init ()).calls
    ∧ (handle { Key := "expose", Value := "true" } failingStrategy
          (.Added (.service (Service.mk3 "ns1" "svc1" (some (LabelMap.single "expose" "true")))))
          (World.init ())).world.calls ≠ (World.init ()).calls
    ∧ (handle { Key := "expose", Value := "true" } failingStrategy
          (.Added (.service (Service.mk3 "ns1" "svc1" (some (LabelMap.single "expose" "true")))))
          (World.init ())).returned = true
    ∧ (handle { Key := "expose", Value := "true" } okStrategy
          (.Added (.service (Service.mk3 "ns1" "svc1" (some (LabelMap.single "expose" "true")))))
          (World.init ())).returned = true
    ∧ (handle { Key := "expose", Value := "true" } failingStrategy
          (.Added (.service (Service.mk3 "ns1" "svc1" (some (LabelMap.single "expose" "true")))))
          (World.init ())).world.calls
        = (handle { Key := "expose", Value := "true" } okStrategy
          (.Added (.service (Service.mk3 "ns1" "svc1" (some (LabelMap.single "expose" "true")))))
          (World.init ())).world.calls :=
  ⟨rfl, by decide,
    handle_strategy_error_swallowed { Key := "expose", Value := "true" } failingStrategy
      okStrategy
      (.Added (.service (Service.mk3 "ns1" "svc1" (some (LabelMap.single "expose" "true")))))
      (World.init ()) (World.init ()) rfl (by decide)⟩

/-- C10: for a tombstone key `a/b/rest` (no separator inside `a` or `b`, anything in `rest`,
further separators included), the delete handler returns and issues exactly one call, a
Remove on the service with namespace `a`, name `b` and nil labels; `rest` is dropped, and
when that Remove succeeds nothing is logged. -/
theorem DeleteFunc_tombstone_extra_separators {σ : Type} (S : ExposeStrategy σ)
    (a b rest : String) (stale : Option Service) (w : World σ)
    (ha : '/' ∉ a.toList) (hb : '/' ∉ b.toList) :
    (DeleteFunc S (.deletedFinalStateUnknown { Key := a ++ "/" ++ b ++ "/" ++ rest, Obj := stale })
        w).returned = true
    ∧ (DeleteFunc S (.deletedFinalStateUnknown { Key := a ++ "/" ++ b ++ "/" ++ rest, Obj := stale })
        w).world.calls
        = w.calls ++ [Call.Remove { ObjectMeta := { Namespace := a, Name := b, Labels := none } }]
    ∧ ((S.Remove { ObjectMeta := { Namespace := a, Name := b, Labels := none } } w.strategy).1
          = none →
        (DeleteFunc S
          (.deletedFinalStateUnknown { Key := a ++ "/" ++ b ++ "/" ++ rest, Obj := stale })
          w).world.log = w.log) := by
  have hs : Split (a ++ "/" ++ b ++ "/" ++ rest) '/' = a :: b :: Split rest '/' := by
    have e : a ++ "/" ++ b ++ "/" ++ rest = a ++ "/" ++ (b ++ "/" ++ rest) := by
      simp [String.append_assoc]
    rw [e]
    have h1 : Split (a ++ "/" ++ (b ++ "/" ++ rest)) '/' = a :: Split (b ++ "/" ++ rest) '/' :=
      Split_append_sep '/' a (b ++ "/" ++ rest) ha
    have h2 : Split (b ++ "/" ++ rest) '/' = b :: Split rest '/' :=
      Split_append_sep '/' b rest hb
    rw [h1, h2]
  exact DeleteFunc_of_split S { Key := a ++ "/" ++ b ++ "/" ++ rest, Obj := stale } w a b
    (Split rest '/') hs

/-- Witness for C10: the key "a/b/c" with a strategy that succeeds. -/
theorem DeleteFunc_tombstone_extra_separators_witness :
    '/' ∉ "a".toList ∧ '/' ∉ "b".toList
    ∧ (DeleteFunc okStrategy (.deletedFinalStateUnknown { Key := "a/b/c", Obj := none })
        (World.init ())).returned = true
    ∧ (DeleteFunc okStrategy (.deletedFinalStateUnknown { Key := "a/b/c", Obj := none })
        (World.init ())).world.calls
        = [Call.Remove { ObjectMeta := { Namespace := "a", Name := "b", Labels := none } }]
    ∧ (DeleteFunc okStrategy (.deletedFinalStateUnknown { Key := "a/b/c", Obj := none })
        (World.init ())).world.log = [] :=
  have h := DeleteFunc_tombstone_extra_separators okStrategy "a" "b" "c" none (World.init ())
    (by decide) (by decide)
  ⟨by decide, by decide, h.1, h.2.1, h.2.2 rfl⟩

end controller
